import Mathlib

/-!
Shallow embedding of `tle/util/cache_system2.py`: the refresh-orchestration
core of the TLE caching layer (contest cache, problem cache, problemset
cache, rating-changes cache, ranklist cache).  Pure functions of the source
become Lean functions; stateful refresh bodies become explicit
state-passing functions; the remote API client is an explicit oracle
argument returning `Except CodeforcesApiError _`.  Machine times are
modelled as `Int` seconds.
-/

/-- Contest phase.  Modelled from the spec: the enumeration lives in
`cf.Contest.PHASES` of the `codeforces_api` module, which is outside the
provided sources; the spec lists BEFORE, CODING, PENDING_SYSTEM_TEST,
SYSTEM_TEST, FINISHED. -/
inductive Phase where
  | BEFORE
  | CODING
  | PENDING_SYSTEM_TEST
  | SYSTEM_TEST
  | FINISHED
deriving DecidableEq, Repr

/-- Modelled from the spec: `cf.Contest.PHASES`, the list of all phases. -/
def Phase.PHASES : List Phase :=
  [.BEFORE, .CODING, .PENDING_SYSTEM_TEST, .SYSTEM_TEST, .FINISHED]

/-- Contest record.  Modelled from the spec (the `Contest` class is in the
`codeforces_api` module, outside the provided sources): identity `id`,
`phase`, `startTimeSeconds`, `durationSeconds`, `name`. -/
structure Contest where
  id : Nat
  name : String
  phase : Phase
  startTimeSeconds : Int
  durationSeconds : Int
deriving DecidableEq, Repr

/-- Modelled from the spec: `contest.end_time` is the start time plus the
duration (`durationSeconds`/`endTime` in the data model). -/
def Contest.end_time (c : Contest) : Int :=
  c.startTimeSeconds + c.durationSeconds

/-- Error raised by the remote API client (`cf.CodeforcesApiError`);
its structure is irrelevant to the core, which only catches it. -/
structure CodeforcesApiError where
  msg : String
deriving DecidableEq, Repr

namespace ContestCache

def NORMAL_CONTEST_RELOAD_DELAY : Int := 30 * 60

def EXCEPTION_CONTEST_RELOAD_DELAY : Int := 5 * 60

def ACTIVE_CONTEST_RELOAD_DELAY : Int := 5 * 60

def ACTIVATE_BEFORE : Int := 20 * 60

def RUNNING_PHASES : List Phase := [.CODING, .PENDING_SYSTEM_TEST, .SYSTEM_TEST]

/-- Comparison used by `contests.sort(key=lambda contest:
(contest.startTimeSeconds, contest.id))`: lexicographic order on the pair. -/
def keyLe (a b : Contest) : Prop :=
  a.startTimeSeconds < b.startTimeSeconds ∨
    (a.startTimeSeconds = b.startTimeSeconds ∧ a.id ≤ b.id)

instance : DecidableRel keyLe := fun a b => by
  unfold keyLe; infer_instance

instance : IsTotal Contest keyLe :=
  ⟨by intro a b; unfold keyLe; omega⟩

instance : IsTrans Contest keyLe :=
  ⟨by intro a b c; unfold keyLe; omega⟩

/-- Embeds `contests.sort(key=lambda contest: (contest.startTimeSeconds,
contest.id))`: stable sort by the key, written as insertion sort. -/
def sortContests (contests : List Contest) : List Contest :=
  List.insertionSort keyLe contests

/-- The published snapshot replaced atomically at the end of
`ContestCache._update`: the sorted contest list, the phase buckets and the
synthetic `_RUNNING` bucket. -/
structure Snapshot where
  contests : List Contest
  contests_by_phase : Phase → List Contest
  running : List Contest

/-- One iteration of the bucket-building loop of `ContestCache._update`:
append the contest to its phase bucket and, when its phase is a running
phase, also to the `_RUNNING` bucket. -/
def bucketStep (acc : (Phase → List Contest) × List Contest) (c : Contest) :
    (Phase → List Contest) × List Contest :=
  (fun p => if p = c.phase then acc.1 p ++ [c] else acc.1 p,
   if c.phase ∈ RUNNING_PHASES then acc.2 ++ [c] else acc.2)

/-- The bucket-building loop of `ContestCache._update`: one pass over the
sorted contests appending each contest to its phase bucket and, when its
phase is a running phase, also to the `_RUNNING` bucket. -/
def buildBuckets (contests : List Contest) : (Phase → List Contest) × List Contest :=
  contests.foldl bucketStep (fun _ => [], [])

/-- One iteration of the adaptive-delay loop of `ContestCache._update`:
a contest whose activation point (`startTimeSeconds - ACTIVATE_BEFORE`)
is still in the future folds `min delay (at - now)`, while a contest
already within the lead time assigns
`min (startTimeSeconds - now) ACTIVE_CONTEST_RELOAD_DELAY`, overwriting
the accumulator. -/
def delayStep (now : Int) (delay : Int) (c : Contest) : Int :=
  let at_ := c.startTimeSeconds - ACTIVATE_BEFORE
  if at_ > now then min delay (at_ - now)
  else min (c.startTimeSeconds - now) ACTIVE_CONTEST_RELOAD_DELAY

/-- The adaptive-delay loop of `ContestCache._update` over the BEFORE
bucket, starting from the normal delay. -/
def delayFold (now : Int) (beforeContests : List Contest) : Int :=
  beforeContests.foldl (delayStep now) NORMAL_CONTEST_RELOAD_DELAY

/-- A BEFORE contest is within the activation lead time when its
activation point `startTimeSeconds - ACTIVATE_BEFORE` is not in the
future (the `else` branch of the delay loop). -/
def withinLead (now : Int) (c : Contest) : Prop :=
  c.startTimeSeconds - ACTIVATE_BEFORE ≤ now

instance (now : Int) (c : Contest) : Decidable (withinLead now c) := by
  unfold withinLead; infer_instance

/-- Embeds `ContestCache._update`: sort the fetched contests by
`(startTimeSeconds, id)`, rebuild the phase buckets and `_RUNNING` group,
compute the adaptive delay from the BEFORE bucket and whether any contest
is running, and return the new snapshot with the delay. -/
def update (contests : List Contest) (now : Int) : Snapshot × Int :=
  let sorted := sortContests contests
  let buckets := buildBuckets sorted
  let delay0 := delayFold now (buckets.1 Phase.BEFORE)
  let delay := if buckets.2 ≠ [] then min delay0 ACTIVE_CONTEST_RELOAD_DELAY else delay0
  ({ contests := sorted, contests_by_phase := buckets.1, running := buckets.2 }, delay)

/-- The delay the spec describes, written from the spec's words for
comparison with `update`: the minimum over the baseline and every
proposal, where each BEFORE contest whose activation point is in the
future proposes the time until that point, each BEFORE contest within the
lead time proposes `min (time until start) ACTIVE_CONTEST_RELOAD_DELAY`,
and a running contest proposes `ACTIVE_CONTEST_RELOAD_DELAY`. -/
def specDelay (now : Int) (beforeContests : List Contest) (anyRunning : Bool) : Int :=
  let proposals :=
    beforeContests.map (fun c =>
      let at_ := c.startTimeSeconds - ACTIVATE_BEFORE
      if at_ > now then at_ - now
      else min (c.startTimeSeconds - now) ACTIVE_CONTEST_RELOAD_DELAY) ++
    (if anyRunning then [ACTIVE_CONTEST_RELOAD_DELAY] else [])
  proposals.foldl min NORMAL_CONTEST_RELOAD_DELAY

/-- State of `ContestCache` visible to `reload_now` and `_update_task`:
the recorded last error and the computed next delay. -/
structure CCState where
  reload_exception : Option CodeforcesApiError
  next_delay : Option Int

/-- One cycle of `ContestCache._update_task` together with its exception
handler: on success the body stores the adaptive delay and then clears
`reload_exception`; on failure the handler records the exception and sets
the short exception delay. -/
def update_task_cycle (s : CCState) (fetched : Except CodeforcesApiError (List Contest))
    (now : Int) : CCState :=
  match fetched with
  | .ok contests =>
      { reload_exception := none, next_delay := some (update contests now).2 }
  | .error e =>
      { s with reload_exception := some e,
               next_delay := some EXCEPTION_CONTEST_RELOAD_DELAY }

/-- The final `if self.reload_exception: raise self.reload_exception` of
`reload_now`. -/
def raiseIfError (s : CCState) : Except CodeforcesApiError Unit :=
  match s.reload_exception with
  | some e => .error e
  | none => .ok ()

/-- Embeds `ContestCache.reload_now`: when the reload lock is held the caller
rides the in-flight refresh cycle to completion without triggering a new
one; otherwise it manually triggers exactly one fresh cycle.  Either way
the recorded last error, if any, is then raised.  Returns the number of
manual triggers issued, the state after the cycle, and the outcome
surfaced to the caller. -/
def reload_now (lockedAtEntry : Bool) (s : CCState)
    (fetched : Except CodeforcesApiError (List Contest)) (now : Int) :
    Nat × CCState × Except CodeforcesApiError Unit :=
  if lockedAtEntry then
    let s' := update_task_cycle s fetched now
    (0, s', raiseIfError s')
  else
    let s' := update_task_cycle s fetched now
    (1, s', raiseIfError s')

end ContestCache

/-- Problem record.  Modelled from the spec (the `Problem` class is in the
`codeforces_api` module, outside the provided sources): identity
`(contestId, index)`, `name`, nullable `rating`. -/
structure Problem where
  contestId : Nat
  index : String
  name : String
  rating : Option Int
deriving DecidableEq, Repr

namespace ProblemCache

def RELOAD_INTERVAL : Int := 6 * 60 * 60

/-- State of `ProblemCache` visible to `reload_now`: the recorded last
error. -/
structure PCState where
  reload_exception : Option CodeforcesApiError

/-- One cycle of `ProblemCache._update_task` together with its exception
handler: on success the body rebuilds the catalog and then clears
`reload_exception`; on failure the handler records the exception. -/
def update_task_cycle (s : PCState)
    (fetched : Except CodeforcesApiError (List Problem)) : PCState :=
  match fetched with
  | .ok _ => { reload_exception := none }
  | .error e => { s with reload_exception := some e }

/-- The final `if self.reload_exception: raise self.reload_exception` of
`ProblemCache.reload_now`. -/
def raiseIfError (s : PCState) : Except CodeforcesApiError Unit :=
  match s.reload_exception with
  | some e => .error e
  | none => .ok ()

/-- Embeds `ProblemCache.reload_now`: identical single-flight protocol to
`ContestCache.reload_now`. -/
def reload_now (lockedAtEntry : Bool) (s : PCState)
    (fetched : Except CodeforcesApiError (List Problem)) :
    Nat × PCState × Except CodeforcesApiError Unit :=
  if lockedAtEntry then
    let s' := update_task_cycle s fetched
    (0, s', raiseIfError s')
  else
    let s' := update_task_cycle s fetched
    (1, s', raiseIfError s')

end ProblemCache

/-- Equality of the Python id sets `{contest.id for contest in l1}` and
`{contest.id for contest in l2}` (the `new_ids != cur_ids` comparison of
the two coordinator tasks). -/
def idSetEqb (l1 l2 : List Contest) : Bool :=
  l1.all (fun c => l2.any (fun d => d.id == c.id)) &&
    l2.all (fun c => l1.any (fun d => d.id == c.id))

namespace ProblemsetCache

def MONITOR_PERIOD_SINCE_CONTEST_END : Int := 14 * 24 * 60 * 60

def RELOAD_DELAY : Int := 60 * 60

/-- Embeds `ProblemsetCache._fetch_for_contest`: fetch one contest's problemset
from the API oracle; a `CodeforcesApiError` is caught and treated as an
empty problemset for that contest. -/
def fetch_for_contest (api : Nat → Except CodeforcesApiError (List Problem))
    (contest_id : Nat) : List Problem :=
  match api contest_id with
  | .ok problemset => problemset
  | .error _ => []

/-- The set of already-rated problem indices of a persisted problemset:
`{prob.index for prob in problemset if prob.rating is not None}`,
modelled as the deduplicated list of indices. -/
def ratedProblemIdx (problemset : List Problem) : List String :=
  ((problemset.filter (fun p => decide (p.rating ≠ none))).map (fun p => p.index)).dedup

/-- The selection loop of `ProblemsetCache._fetch_problemsets` on the
non-forced path: walk the contests in order; skip a contest older than
the monitoring window; schedule a contest with no persisted problemset as
new; schedule a contest whose persisted problemset has fewer rated
indices than problems as a refetch, remembering its rated indices. -/
def selectContests (now : Int) (persisted : Nat → List Problem) :
    List Contest → List Nat × List (Nat × List String)
  | [] => ([], [])
  | contest :: rest =>
    let sel := selectContests now persisted rest
    if now > contest.end_time + MONITOR_PERIOD_SINCE_CONTEST_END then sel
    else if persisted contest.id = [] then (contest.id :: sel.1, sel.2)
    else if (ratedProblemIdx (persisted contest.id)).length <
        (persisted contest.id).length then
      (sel.1, (contest.id, ratedProblemIdx (persisted contest.id)) :: sel.2)
    else sel

/-- Embeds `ProblemsetCache._fetch_problemsets`: on the forced path every contest
is fetched as new; otherwise the selection loop decides; the new problems
are every fetched problem of a new contest, and the updated problems are
the fetched problems of refetched contests whose rating is now known and
whose index was not previously rated. -/
def fetch_problemsets (now : Int) (contests : List Contest)
    (persisted : Nat → List Problem)
    (api : Nat → Except CodeforcesApiError (List Problem)) (force_fetch : Bool) :
    List Problem × List Problem :=
  let sel :=
    if force_fetch then (contests.map (fun c => c.id), [])
    else selectContests now persisted contests
  let new_problems := (sel.1.map (fun cid => fetch_for_contest api cid)).flatten
  let updated_problems :=
    (sel.2.map (fun pr =>
      (fetch_for_contest api pr.1).filter
        (fun p => decide (p.rating ≠ none) && decide (p.index ∉ pr.2)))).flatten
  (new_problems, updated_problems)

end ProblemsetCache

/-- Rating change record.  Modelled from the spec (the class is in the
`codeforces_api` module, outside the provided sources):
`(contestId, handle, oldRating, newRating)`. -/
structure RatingChange where
  contestId : Nat
  handle : String
  oldRating : Int
  newRating : Int
deriving DecidableEq, Repr

namespace RatingChangesCache

def DEFAULT_RATING : Int := 1500

def RATED_DELAY : Int := 36 * 60 * 60

def RELOAD_DELAY : Int := 10 * 60

/-- One iteration of the loop of
`RatingChangesCache._refresh_handle_cache`: add the delta to the handle's
entry, or initialize it to the default rating plus the delta. -/
def applyChange (m : String → Option Int) (change : RatingChange) :
    String → Option Int :=
  fun h =>
    if h = change.handle then
      match m change.handle with
      | some r => some (r + (change.newRating - change.oldRating))
      | none => some (DEFAULT_RATING + (change.newRating - change.oldRating))
    else m h

/-- Embeds `RatingChangesCache._refresh_handle_cache`: recompute the handle →
rating map from the full persisted change log. -/
def refresh_handle_cache (changes : List RatingChange) : String → Option Int :=
  changes.foldl applyChange (fun _ => none)

/-- Embeds `RatingChangesCache.get_current_rating_or_default`. -/
def get_current_rating_or_default (handle_rating_cache : String → Option Int)
    (handle : String) : Int :=
  (handle_rating_cache handle).getD DEFAULT_RATING

/-- Embeds `RatingChangesCache.is_newly_finished_without_rating_changes`; the
database query `has_rating_changes_saved` is an oracle. -/
def is_newly_finished_without_rating_changes (saved : Nat → Bool) (now : Int)
    (contest : Contest) : Prop :=
  contest.phase = Phase.FINISHED ∧
    now - contest.end_time < RATED_DELAY ∧
    ¬ saved contest.id = true

instance (saved : Nat → Bool) (now : Int) (contest : Contest) :
    Decidable (is_newly_finished_without_rating_changes saved now contest) := by
  unfold is_newly_finished_without_rating_changes; infer_instance

/-- One iteration of the loop of `RatingChangesCache._fetch`: append the
contest's fetched changes, or nothing when the API call raised a
`CodeforcesApiError` (caught and logged). -/
def fetchStep (api : Nat → Except CodeforcesApiError (List RatingChange))
    (all_changes : List RatingChange) (contest : Contest) : List RatingChange :=
  match api contest.id with
  | .ok changes => all_changes ++ changes
  | .error _ => all_changes

/-- Embeds `RatingChangesCache._fetch`: accumulate each contest's rating changes;
a `CodeforcesApiError` for one contest is caught and contributes
nothing. -/
def fetch (contests : List Contest)
    (api : Nat → Except CodeforcesApiError (List RatingChange)) : List RatingChange :=
  contests.foldl (fetchStep api) []

/-- State acted on by the manual fetch operations: the persisted change
log (the rating-changes table of the store, as its list of rows) and the
in-memory handle → rating map. -/
structure RCState where
  db : List RatingChange
  handle_rating_cache : String → Option Int

/-- Embeds `conn.clear_rating_changes(contest_id=...)`: delete the persisted
rows of that contest. -/
def clear_rating_changes (db : List RatingChange) (contest_id : Nat) :
    List RatingChange :=
  db.filter (fun change => decide (change.contestId ≠ contest_id))

/-- Embeds `RatingChangesCache._save_changes`: an empty change list returns
early; otherwise the changes are saved and the handle rating map is
recomputed from the full log. -/
def save_changes (s : RCState) (changes : List RatingChange) : RCState :=
  if changes = [] then s
  else
    let db := s.db ++ changes
    { db := db, handle_rating_cache := refresh_handle_cache db }

/-- Embeds `RatingChangesCache.fetch_contest`: fetch the contest's rating
changes, clear its persisted rows, then save the fetched changes. -/
def fetch_contest (s : RCState) (contest : Contest)
    (api : Nat → Except CodeforcesApiError (List RatingChange)) : RCState × Nat :=
  let changes := fetch [contest] api
  let s1 : RCState := { s with db := clear_rating_changes s.db contest.id }
  let s2 := save_changes s1 changes
  (s2, changes.length)

/-- Coordinator-visible state: the monitored contests and whether the
monitor sub-task is running. -/
structure MonitorState where
  monitored_contests : List Contest
  monitorRunning : Bool

/-- Embeds `RatingChangesCache._update_task` (the signal-driven coordinator):
recompute the monitored set from the FINISHED bucket; when its id set
differs from the current one, stop the monitor, then either install the
new set and start the monitor (non-empty) or clear the set (empty). -/
def update_task (finished : List Contest) (saved : Nat → Bool) (now : Int)
    (s : MonitorState) : MonitorState :=
  let to_monitor := finished.filter
    (fun c => decide (is_newly_finished_without_rating_changes saved now c))
  if idSetEqb to_monitor s.monitored_contests then s
  else if to_monitor ≠ [] then
    { monitored_contests := to_monitor, monitorRunning := true }
  else
    { monitored_contests := [], monitorRunning := false }

end RatingChangesCache

/-- Ranklist payload.  Modelled opaque: the `Ranklist` class lives in
`tle/util/ranklist.py`, outside the provided sources, and the cache logic
never inspects it. -/
structure Ranklist where
  payload : Nat
deriving DecidableEq, Repr

namespace RanklistCache

def RELOAD_DELAY : Int := 2 * 60

/-- State of `RanklistCache`: the monitored contests, the per-contest
ranklist dict, and whether the monitor sub-task is running. -/
structure RLState where
  monitored_contests : List Contest
  ranklist_by_contest : Nat → Option Ranklist
  monitorRunning : Bool

/-- One iteration of the loop of `RanklistCache._fetch`: record the
generated ranklist under the contest's id, or leave the dict untouched
when generation raised a `CodeforcesApiError` (caught and logged). -/
def fetchStep (gen : Nat → Except CodeforcesApiError Ranklist)
    (m : Nat → Option Ranklist) (contest : Contest) : Nat → Option Ranklist :=
  match gen contest.id with
  | .ok ranklist => fun i => if i = contest.id then some ranklist else m i
  | .error _ => m

/-- Embeds `RanklistCache._fetch`: build the dict contest id → ranklist
over the monitored contests; generation failure for one contest is caught
and leaves that contest out of the dict. -/
def fetch (contests : List Contest)
    (gen : Nat → Except CodeforcesApiError Ranklist) : Nat → Option Ranklist :=
  contests.foldl (fetchStep gen) (fun _ => none)

/-- Embeds `RanklistCache._update_task` (the signal-driven coordinator): the
monitored set is the `_RUNNING` bucket plus the FINISHED contests passing
the rating-changes check; when its id set differs from the current one,
stop the monitor, then either install the new set and start the monitor
(non-empty) or clear the ranklist dict (empty) — in the empty branch
`monitored_contests` is left unchanged. -/
def update_task (running finished : List Contest) (check : Contest → Bool)
    (s : RLState) : RLState :=
  let to_monitor := running ++ finished.filter check
  if idSetEqb to_monitor s.monitored_contests then s
  else if to_monitor ≠ [] then
    { s with monitored_contests := to_monitor, monitorRunning := true }
  else
    { s with ranklist_by_contest := fun _ => none, monitorRunning := false }

/-- Embeds `RanklistCache._monitor_task`: drop monitored FINISHED contests that
fail the rating-changes check; when none remain, clear the dict and stop;
otherwise fetch ranklists for the remaining monitored contests and write
each fetched ranklist into the dict, keeping the old entry of every
contest whose fetch failed. -/
def monitor_task (check : Contest → Bool) (s : RLState)
    (gen : Nat → Except CodeforcesApiError Ranklist) : RLState :=
  let monitored := s.monitored_contests.filter
    (fun c => decide (c.phase ≠ Phase.FINISHED) || check c)
  if monitored = [] then
    { monitored_contests := monitored, ranklist_by_contest := fun _ => none,
      monitorRunning := false }
  else
    let fetched := fetch monitored gen
    { monitored_contests := monitored,
      ranklist_by_contest := fun i =>
        match fetched i with
        | some ranklist => some ranklist
        | none => s.ranklist_by_contest i,
      monitorRunning := true }

end RanklistCache

namespace ContestCache

lemma foldl_bucketStep_fst (l : List Contest) (acc : (Phase → List Contest) × List Contest)
    (p : Phase) :
    (l.foldl bucketStep acc).1 p = acc.1 p ++ l.filter (fun c => c.phase == p) := by
  induction l generalizing acc with
  | nil => simp
  | cons c t ih =>
    rw [List.foldl_cons, ih]
    by_cases h : p = c.phase
    · subst h
      simp [bucketStep, List.filter_cons]
    · have hb : (c.phase == p) = false := by
        simp [beq_eq_false_iff_ne]
        exact fun e => h e.symm
      simp [bucketStep, List.filter_cons, hb, h]

lemma foldl_bucketStep_snd (l : List Contest) (acc : (Phase → List Contest) × List Contest) :
    (l.foldl bucketStep acc).2 =
      acc.2 ++ l.filter (fun c => decide (c.phase ∈ RUNNING_PHASES)) := by
  induction l generalizing acc with
  | nil => simp
  | cons c t ih =>
    rw [List.foldl_cons, ih]
    by_cases h : c.phase ∈ RUNNING_PHASES <;>
      simp [bucketStep, List.filter_cons, h]

lemma buildBuckets_fst (l : List Contest) (p : Phase) :
    (buildBuckets l).1 p = l.filter (fun c => c.phase == p) := by
  rw [buildBuckets, foldl_bucketStep_fst]
  rfl

lemma buildBuckets_snd (l : List Contest) :
    (buildBuckets l).2 = l.filter (fun c => decide (c.phase ∈ RUNNING_PHASES)) := by
  rw [buildBuckets, foldl_bucketStep_snd]
  rfl

lemma count_filter_phase (a : Contest) (l : List Contest) (p : Phase) :
    (l.filter (fun c => c.phase == p)).count a =
      if a.phase = p then l.count a else 0 := by
  by_cases h : a.phase = p
  · rw [if_pos h, List.count_filter]
    simp [h]
  · rw [if_neg h, List.count_eq_zero]
    intro hmem
    have := (List.mem_filter.mp hmem).2
    simp [beq_iff_eq] at this
    exact h this

lemma count_filter_running (a : Contest) (l : List Contest) :
    (l.filter (fun c => decide (c.phase ∈ RUNNING_PHASES))).count a =
      if a.phase ∈ RUNNING_PHASES then l.count a else 0 := by
  by_cases h : a.phase ∈ RUNNING_PHASES
  · rw [if_pos h, List.count_filter]
    simp [h]
  · rw [if_neg h, List.count_eq_zero]
    intro hmem
    have := (List.mem_filter.mp hmem).2
    simp at this
    exact h this

lemma phases_partition (l : List Contest) :
    ((Phase.PHASES.map (fun p => l.filter (fun c => c.phase == p))).flatten).Perm l := by
  rw [List.perm_iff_count]
  intro a
  simp only [Phase.PHASES, List.map_cons, List.map_nil, List.flatten_cons, List.flatten_nil,
    List.count_append, List.count_nil, count_filter_phase]
  rcases h : a.phase <;> simp [h]

lemma running_filter_perm (l : List Contest) :
    (l.filter (fun c => decide (c.phase ∈ RUNNING_PHASES))).Perm
      (l.filter (fun c => c.phase == Phase.CODING) ++
       l.filter (fun c => c.phase == Phase.PENDING_SYSTEM_TEST) ++
       l.filter (fun c => c.phase == Phase.SYSTEM_TEST)) := by
  rw [List.perm_iff_count]
  intro a
  simp only [List.count_append, count_filter_phase, count_filter_running]
  rcases h : a.phase <;> simp [h, RUNNING_PHASES]

lemma keyLe_start_mono {a b : Contest} (h : keyLe a b) :
    a.startTimeSeconds ≤ b.startTimeSeconds := by
  unfold keyLe at h; omega

lemma sorted_near_far_split (now : Int) :
    ∀ l : List Contest, l.Pairwise keyLe →
      l = l.filter (fun c => decide (withinLead now c)) ++
          l.filter (fun c => !decide (withinLead now c)) := by
  intro l hl
  induction l with
  | nil => rfl
  | cons c t ih =>
    rcases List.pairwise_cons.mp hl with ⟨hc, ht⟩
    by_cases hw : withinLead now c
    · simpa [List.filter_cons, hw] using congrArg (List.cons c) (ih ht)
    · have hall : ∀ x ∈ t, ¬ withinLead now x := by
        intro x hx hwx
        apply hw
        have hst := keyLe_start_mono (hc x hx)
        unfold withinLead at hwx ⊢
        omega
      have h1 : t.filter (fun c => decide (withinLead now c)) = [] := by
        rw [List.filter_eq_nil_iff]
        intro x hx
        simpa using hall x hx
      have h2 : t.filter (fun c => !decide (withinLead now c)) = t := by
        rw [List.filter_eq_self]
        intro x hx
        simpa using hall x hx
      simp [List.filter_cons, hw, h1, h2]

lemma delayFold_near (now : Int) :
    ∀ (l : List Contest) (init : Int), (∀ c ∈ l, withinLead now c) →
      l.foldl (delayStep now) init =
        (match l.getLast? with
         | none => init
         | some c => min (c.startTimeSeconds - now) ACTIVE_CONTEST_RELOAD_DELAY) := by
  intro l
  induction l with
  | nil => intro init _; rfl
  | cons c t ih =>
    intro init hall
    have hc : withinLead now c := hall c (List.mem_cons_self c t)
    have hstep : delayStep now init c =
        min (c.startTimeSeconds - now) ACTIVE_CONTEST_RELOAD_DELAY := by
      unfold delayStep withinLead at *
      simp only [if_neg (by omega : ¬ c.startTimeSeconds - ACTIVATE_BEFORE > now)]
    rw [List.foldl_cons, hstep]
    cases t with
    | nil => rfl
    | cons d u =>
      rw [ih _ (fun x hx => hall x (List.mem_cons_of_mem c hx))]
      rfl

lemma delayFold_far (now : Int) :
    ∀ (l : List Contest) (init : Int), (∀ c ∈ l, ¬ withinLead now c) →
      l.foldl (delayStep now) init =
        (l.map (fun c => c.startTimeSeconds - ACTIVATE_BEFORE - now)).foldl min init := by
  intro l
  induction l with
  | nil => intro init _; rfl
  | cons c t ih =>
    intro init hall
    have hc : ¬ withinLead now c := hall c (List.mem_cons_self c t)
    have hstep : delayStep now init c = min init (c.startTimeSeconds - ACTIVATE_BEFORE - now) := by
      unfold delayStep withinLead at *
      simp only [if_pos (by omega : c.startTimeSeconds - ACTIVATE_BEFORE > now)]
    rw [List.foldl_cons, hstep, List.map_cons, List.foldl_cons,
      ih _ (fun x hx => hall x (List.mem_cons_of_mem c hx))]

lemma update_contests_eq (contests : List Contest) (now : Int) :
    (update contests now).1.contests = sortContests contests := rfl

lemma update_contests_by_phase (contests : List Contest) (now : Int) (p : Phase) :
    (update contests now).1.contests_by_phase p =
      (sortContests contests).filter (fun c => c.phase == p) := by
  show (buildBuckets (sortContests contests)).1 p = _
  rw [buildBuckets_fst]

lemma update_running (contests : List Contest) (now : Int) :
    (update contests now).1.running =
      (sortContests contests).filter (fun c => decide (c.phase ∈ RUNNING_PHASES)) := by
  show (buildBuckets (sortContests contests)).2 = _
  rw [buildBuckets_snd]

lemma update_delay_eq (contests : List Contest) (now : Int) :
    (update contests now).2 =
      (if (update contests now).1.running ≠ [] then
        min (delayFold now ((update contests now).1.contests_by_phase Phase.BEFORE))
          ACTIVE_CONTEST_RELOAD_DELAY
       else delayFold now ((update contests now).1.contests_by_phase Phase.BEFORE)) := rfl

lemma delayFold_eq_near_far (now : Int) (l : List Contest) (hl : l.Pairwise keyLe) :
    delayFold now l =
      ((l.filter (fun c => !decide (withinLead now c))).map
        (fun c => c.startTimeSeconds - ACTIVATE_BEFORE - now)).foldl min
        (match (l.filter (fun c => decide (withinLead now c))).getLast? with
         | none => NORMAL_CONTEST_RELOAD_DELAY
         | some c => min (c.startTimeSeconds - now) ACTIVE_CONTEST_RELOAD_DELAY) := by
  conv_lhs => rw [delayFold, sorted_near_far_split now l hl]
  rw [List.foldl_append]
  rw [delayFold_far now _ _ (fun c hc => by simpa using (List.mem_filter.mp hc).2)]
  rw [delayFold_near now _ _ (fun c hc => by simpa using (List.mem_filter.mp hc).2)]

end ContestCache

namespace ContestCache

/-- C2: after every ContestCache update, the published snapshot's contest
sequence is sorted ascending by `(startTimeSeconds, id)`; the phase
buckets partition the sequence (their concatenation in phase order is a
permutation of the sequence, which is itself a permutation of the fetched
input, so no contest is missing or duplicated); and the `_RUNNING` bucket
is exactly the union of the CODING, PENDING_SYSTEM_TEST and SYSTEM_TEST
buckets. -/
theorem C2_snapshot_invariants (contests : List Contest) (now : Int) :
    ((update contests now).1.contests).Sorted keyLe ∧
    ((update contests now).1.contests).Perm contests ∧
    ((Phase.PHASES.map (update contests now).1.contests_by_phase).flatten).Perm
      ((update contests now).1.contests) ∧
    ((update contests now).1.running).Perm
      ((update contests now).1.contests_by_phase Phase.CODING ++
       (update contests now).1.contests_by_phase Phase.PENDING_SYSTEM_TEST ++
       (update contests now).1.contests_by_phase Phase.SYSTEM_TEST) := by
  refine ⟨?_, ?_, ?_, ?_⟩
  · rw [update_contests_eq]
    exact List.sorted_insertionSort keyLe contests
  · rw [update_contests_eq]
    exact List.perm_insertionSort keyLe contests
  · have hmap : Phase.PHASES.map (update contests now).1.contests_by_phase =
        Phase.PHASES.map (fun p => (sortContests contests).filter (fun c => c.phase == p)) :=
      List.map_congr_left (fun p _ => update_contests_by_phase contests now p)
    rw [hmap, update_contests_eq]
    exact phases_partition (sortContests contests)
  · rw [update_running, update_contests_by_phase, update_contests_by_phase,
      update_contests_by_phase]
    exact running_filter_perm (sortContests contests)

/-- C1 (amended): the computed next delay is not in general the minimum
over the baseline and every proposal, because a within-lead BEFORE
contest overwrites the accumulator rather than folding `min` into it.
The delay equals: starting from the last within-lead BEFORE contest's
proposal `min (time until start) ACTIVE_CONTEST_RELOAD_DELAY` (or the
baseline when no contest is within the lead time), fold `min` of the
beyond-lead proposals (time remaining until each activation point), then
take `min` with the active delay when any contest is in `_RUNNING`. -/
theorem C1_adaptive_delay_amended (contests : List Contest) (now : Int) :
    (update contests now).2 =
      (let B := (update contests now).1.contests_by_phase Phase.BEFORE
       let near := B.filter (fun c => decide (withinLead now c))
       let far := B.filter (fun c => !decide (withinLead now c))
       let base :=
         match near.getLast? with
         | none => NORMAL_CONTEST_RELOAD_DELAY
         | some c => min (c.startTimeSeconds - now) ACTIVE_CONTEST_RELOAD_DELAY
       let d := (far.map (fun c => c.startTimeSeconds - ACTIVATE_BEFORE - now)).foldl min base
       if (update contests now).1.running ≠ [] then min d ACTIVE_CONTEST_RELOAD_DELAY
       else d) := by
  have hB : ((update contests now).1.contests_by_phase Phase.BEFORE).Pairwise keyLe := by
    rw [update_contests_by_phase]
    exact List.Pairwise.sublist (List.filter_sublist _) (List.sorted_insertionSort keyLe contests)
  rw [update_delay_eq, delayFold_eq_near_far now _ hB]

/-- C1 fails as stated: with two BEFORE-phase contests both within the
20-minute lead (starting 180 s and 600 s from now), `_update` computes
300 s while the minimum over the baseline and all proposals is 180 s, so
the cache would wake after the first contest has already started. -/
theorem C1_counterexample :
    (update
        [{ id := 1, name := "A", phase := Phase.BEFORE,
           startTimeSeconds := 180, durationSeconds := 7200 },
         { id := 2, name := "B", phase := Phase.BEFORE,
           startTimeSeconds := 600, durationSeconds := 7200 }] 0).2 ≠
      specDelay 0
        ((update
            [{ id := 1, name := "A", phase := Phase.BEFORE,
               startTimeSeconds := 180, durationSeconds := 7200 },
             { id := 2, name := "B", phase := Phase.BEFORE,
               startTimeSeconds := 600, durationSeconds := 7200 }] 0).1.contests_by_phase
          Phase.BEFORE)
        false := by decide

end ContestCache

/-- C3: for both caches exposing `reload_now` (ContestCache and
ProblemCache), `reload_now` rides an in-flight refresh to completion when
the reload mutex is held (zero manual triggers) or triggers exactly one
fresh refresh via `manual_trigger` when it is not (one manual trigger);
after either path the caller-visible state is that of exactly one
completed `_update_task` cycle, and the recorded last error of that cycle
is raised to the caller if and only if the cycle recorded one, with a
normal return otherwise. -/
theorem C3_reload_now_single_flight (locked : Bool) (s : ContestCache.CCState)
    (fetched : Except CodeforcesApiError (List Contest)) (now : Int)
    (sp : ProblemCache.PCState) (fetchedP : Except CodeforcesApiError (List Problem)) :
    ((ContestCache.reload_now locked s fetched now).1 = if locked then 0 else 1) ∧
    ((ContestCache.reload_now locked s fetched now).2.1 =
      ContestCache.update_task_cycle s fetched now) ∧
    (∀ e, (ContestCache.reload_now locked s fetched now).2.2 = .error e ↔
      (ContestCache.update_task_cycle s fetched now).reload_exception = some e) ∧
    ((ContestCache.reload_now locked s fetched now).2.2 = .ok () ↔
      (ContestCache.update_task_cycle s fetched now).reload_exception = none) ∧
    ((ProblemCache.reload_now locked sp fetchedP).1 = if locked then 0 else 1) ∧
    ((ProblemCache.reload_now locked sp fetchedP).2.1 =
      ProblemCache.update_task_cycle sp fetchedP) ∧
    (∀ e, (ProblemCache.reload_now locked sp fetchedP).2.2 = .error e ↔
      (ProblemCache.update_task_cycle sp fetchedP).reload_exception = some e) ∧
    ((ProblemCache.reload_now locked sp fetchedP).2.2 = .ok () ↔
      (ProblemCache.update_task_cycle sp fetchedP).reload_exception = none) := by
  cases locked <;> cases fetched <;> cases fetchedP <;>
    simp [ContestCache.reload_now, ContestCache.update_task_cycle, ContestCache.raiseIfError,
      ProblemCache.reload_now, ProblemCache.update_task_cycle, ProblemCache.raiseIfError]

namespace RatingChangesCache

lemma foldl_applyChange (l : List RatingChange) (m : String → Option Int) (h : String) :
    (l.foldl applyChange m) h =
      (if (l.filter (fun c => c.handle == h)) = [] then m h
       else some ((m h).getD DEFAULT_RATING +
        ((l.filter (fun c => c.handle == h)).map
          (fun c => c.newRating - c.oldRating)).sum)) := by
  induction l generalizing m with
  | nil => simp
  | cons c t ih =>
    rw [List.foldl_cons, ih]
    by_cases hc : c.handle = h
    · have hm : (applyChange m c) h =
          some ((m h).getD DEFAULT_RATING + (c.newRating - c.oldRating)) := by
        unfold applyChange
        rw [if_pos hc.symm, hc]
        cases m h <;> rfl
      by_cases ht : t.filter (fun d => d.handle == h) = []
      · simp [List.filter_cons, hc, ht, hm]
      · simp only [List.filter_cons, hc, beq_self_eq_true, if_pos, ht, if_neg, hm]
        simp [ht]
        ring
    · have hm : (applyChange m c) h = m h := by
        unfold applyChange
        rw [if_neg (fun e => hc e.symm)]
      have hf : ((c :: t).filter (fun d => d.handle == h)) =
          t.filter (fun d => d.handle == h) := by
        simp [List.filter_cons, hc]
      rw [hf, hm]

/-- C4: the handle rating map recomputation is a pure fold over the
persisted change log that is order-independent: permuting the log yields
the same map; a handle with at least one recorded change maps to exactly
`DEFAULT_RATING + sum (newRating - oldRating)` over its changes; a handle
with no recorded change is absent, and
`get_current_rating_or_default` returns `DEFAULT_RATING` for it. -/
theorem C4_handle_rating_map (l l2 : List RatingChange) (h : String) :
    (l.Perm l2 → refresh_handle_cache l = refresh_handle_cache l2) ∧
    (refresh_handle_cache l h = none ↔ l.filter (fun c => c.handle == h) = []) ∧
    (l.filter (fun c => c.handle == h) ≠ [] →
      refresh_handle_cache l h =
        some (DEFAULT_RATING +
          ((l.filter (fun c => c.handle == h)).map
            (fun c => c.newRating - c.oldRating)).sum)) ∧
    (l.filter (fun c => c.handle == h) = [] →
      get_current_rating_or_default (refresh_handle_cache l) h = DEFAULT_RATING) := by
  have key : ∀ (l3 : List RatingChange) (h3 : String),
      refresh_handle_cache l3 h3 =
        (if l3.filter (fun c => c.handle == h3) = [] then none
         else some (DEFAULT_RATING +
          ((l3.filter (fun c => c.handle == h3)).map
            (fun c => c.newRating - c.oldRating)).sum)) := by
    intro l3 h3
    rw [refresh_handle_cache, foldl_applyChange]
    simp
  refine ⟨?_, ?_, ?_, ?_⟩
  · intro hp
    funext h3
    rw [key, key]
    have hpf := hp.filter (fun c => c.handle == h3)
    have hnil : (l.filter (fun c => c.handle == h3) = []) ↔
        (l2.filter (fun c => c.handle == h3) = []) := by
      rw [← List.length_eq_zero, ← List.length_eq_zero, hpf.length_eq]
    have hsum := (hpf.map (fun c => c.newRating - c.oldRating)).sum_eq
    by_cases hx : l.filter (fun c => c.handle == h3) = []
    · rw [if_pos hx, if_pos (hnil.mp hx)]
    · rw [if_neg hx, if_neg (fun e => hx (hnil.mpr e)), hsum]
  · rw [key]
    by_cases hx : l.filter (fun c => c.handle == h) = [] <;> simp [hx]
  · intro hx
    rw [key, if_neg hx]
  · intro hx
    rw [get_current_rating_or_default, key, if_pos hx]
    rfl

/-- C4 witness: a concrete two-change log for handle alice, fed in both
orders, yields the same map, and maps alice to 1500 + (100 - 50). -/
theorem C4_witness :
    refresh_handle_cache
        [{ contestId := 1, handle := "alice", oldRating := 1500, newRating := 1600 },
         { contestId := 2, handle := "alice", oldRating := 1600, newRating := 1550 }] =
      refresh_handle_cache
        [{ contestId := 2, handle := "alice", oldRating := 1600, newRating := 1550 },
         { contestId := 1, handle := "alice", oldRating := 1500, newRating := 1600 }] ∧
    refresh_handle_cache
        [{ contestId := 1, handle := "alice", oldRating := 1500, newRating := 1600 },
         { contestId := 2, handle := "alice", oldRating := 1600, newRating := 1550 }]
      "alice" = some 1550 ∧
    get_current_rating_or_default
      (refresh_handle_cache
        [{ contestId := 1, handle := "alice", oldRating := 1500, newRating := 1600 },
         { contestId := 2, handle := "alice", oldRating := 1600, newRating := 1550 }])
      "bob" = 1500 := by
  refine ⟨?_, ?_, ?_⟩
  · exact (C4_handle_rating_map
      [{ contestId := 1, handle := "alice", oldRating := 1500, newRating := 1600 },
       { contestId := 2, handle := "alice", oldRating := 1600, newRating := 1550 }]
      [{ contestId := 2, handle := "alice", oldRating := 1600, newRating := 1550 },
       { contestId := 1, handle := "alice", oldRating := 1500, newRating := 1600 }]
      "alice").1 (by decide)
  · have := (C4_handle_rating_map
      [{ contestId := 1, handle := "alice", oldRating := 1500, newRating := 1600 },
       { contestId := 2, handle := "alice", oldRating := 1600, newRating := 1550 }]
      [] "alice").2.2.1 (by decide)
    simpa using this
  · have := (C4_handle_rating_map
      [{ contestId := 1, handle := "alice", oldRating := 1500, newRating := 1600 },
       { contestId := 2, handle := "alice", oldRating := 1600, newRating := 1550 }]
      [] "bob").2.2.2 (by decide)
    simpa using this

end RatingChangesCache

/-- C5 (amended): when the coordinator's computed set differs by
contest-id membership from the currently monitored set, both reactive
caches stop the monitor sub-task and restart it only if the new set is
non-empty; RatingChangesCache also empties `monitored_contests` when no
contest qualifies, but RanklistCache's coordinator, in that empty case,
clears the ranklist dict and leaves `monitored_contests` unchanged (it
does not become empty).  When the id sets agree, the state is left
untouched. -/
theorem C5_monitor_lifecycle_amended (finished : List Contest) (saved : Nat → Bool)
    (now : Int) (s : RatingChangesCache.MonitorState)
    (runningL finishedR : List Contest) (check : Contest → Bool)
    (sr : RanklistCache.RLState) :
    (let t := finished.filter (fun c =>
        decide (RatingChangesCache.is_newly_finished_without_rating_changes saved now c))
     (idSetEqb t s.monitored_contests = false →
        (t ≠ [] → RatingChangesCache.update_task finished saved now s =
          { monitored_contests := t, monitorRunning := true }) ∧
        (t = [] → RatingChangesCache.update_task finished saved now s =
          { monitored_contests := [], monitorRunning := false })) ∧
     (idSetEqb t s.monitored_contests = true →
        RatingChangesCache.update_task finished saved now s = s)) ∧
    (let t := runningL ++ finishedR.filter check
     (idSetEqb t sr.monitored_contests = false →
        (t ≠ [] → RanklistCache.update_task runningL finishedR check sr =
          { sr with monitored_contests := t, monitorRunning := true }) ∧
        (t = [] → RanklistCache.update_task runningL finishedR check sr =
          { sr with ranklist_by_contest := fun _ => none, monitorRunning := false })) ∧
     (idSetEqb t sr.monitored_contests = true →
        RanklistCache.update_task runningL finishedR check sr = sr)) := by
  refine ⟨⟨?_, ?_⟩, ?_, ?_⟩
  · intro hne
    constructor <;> intro ht
    · simp [RatingChangesCache.update_task, hne, ht]
    · rw [ht] at hne
      simp [RatingChangesCache.update_task, hne, ht]
  · intro heq
    simp [RatingChangesCache.update_task, heq]
  · intro hne
    constructor <;> intro ht
    · simp [RanklistCache.update_task, hne, ht]
    · rw [ht] at hne
      simp [RanklistCache.update_task, hne, ht]
  · intro heq
    simp [RanklistCache.update_task, heq]

/-- C5 fails as stated for RanklistCache: with one stale monitored
FINISHED contest and an empty computed set, the coordinator stops the
monitor and clears the ranklist dict but leaves `monitored_contests`
non-empty instead of emptying it. -/
theorem C5_counterexample :
    (RanklistCache.update_task [] [] (fun _ => false)
        { monitored_contests :=
            [{ id := 7, name := "C", phase := Phase.FINISHED,
               startTimeSeconds := 0, durationSeconds := 7200 }],
          ranklist_by_contest := fun _ => none,
          monitorRunning := true }).monitored_contests ≠ [] := by
  decide

/-- C5 witness: instantiating the amended theorem at the counterexample
state shows the RanklistCache empty-set branch keeps the old monitored
list while stopping the monitor. -/
theorem C5_witness :
    (RanklistCache.update_task [] [] (fun _ => false)
        { monitored_contests :=
            [{ id := 7, name := "C", phase := Phase.FINISHED,
               startTimeSeconds := 0, durationSeconds := 7200 }],
          ranklist_by_contest := fun _ => none,
          monitorRunning := true }) =
      { monitored_contests :=
          [{ id := 7, name := "C", phase := Phase.FINISHED,
             startTimeSeconds := 0, durationSeconds := 7200 }],
        ranklist_by_contest := fun _ => none,
        monitorRunning := false } := by
  have h := (C5_monitor_lifecycle_amended [] (fun _ => false) 0
    { monitored_contests := [], monitorRunning := false }
    [] [] (fun _ => false)
    { monitored_contests :=
        [{ id := 7, name := "C", phase := Phase.FINISHED,
           startTimeSeconds := 0, durationSeconds := 7200 }],
      ranklist_by_contest := fun _ => none,
      monitorRunning := true }).2.1 (by decide)
  exact h.2 (by decide)

/-- C6: a contest qualifies for the RatingChangesCache monitored set
(the filter applied to the FINISHED bucket by the coordinator) if and
only if its phase is FINISHED, strictly less than the 36-hour rated
delay has elapsed since its end time, and no rating changes are recorded
for it; a FINISHED contest with no recorded changes that ended one hour
ago qualifies, and any contest past the rated-delay window does not. -/
theorem C6_newly_finished_predicate (saved : Nat → Bool) (now : Int) (c : Contest)
    (finished : List Contest) :
    (RatingChangesCache.is_newly_finished_without_rating_changes saved now c ↔
      (c.phase = Phase.FINISHED ∧ now - c.end_time < 36 * 60 * 60 ∧ saved c.id = false)) ∧
    (c ∈ finished.filter (fun d =>
        decide (RatingChangesCache.is_newly_finished_without_rating_changes saved now d)) ↔
      (c ∈ finished ∧
        RatingChangesCache.is_newly_finished_without_rating_changes saved now c)) ∧
    (c.phase = Phase.FINISHED → saved c.id = false → now - c.end_time = 60 * 60 →
      RatingChangesCache.is_newly_finished_without_rating_changes saved now c) ∧
    (36 * 60 * 60 ≤ now - c.end_time →
      ¬ RatingChangesCache.is_newly_finished_without_rating_changes saved now c) := by
  unfold RatingChangesCache.is_newly_finished_without_rating_changes
    RatingChangesCache.RATED_DELAY
  refine ⟨?_, ?_, ?_, ?_⟩
  · constructor
    · rintro ⟨h1, h2, h3⟩
      exact ⟨h1, h2, by simpa using h3⟩
    · rintro ⟨h1, h2, h3⟩
      exact ⟨h1, h2, by simp [h3]⟩
  · simp [List.mem_filter]
  · intro h1 h2 h3
    refine ⟨h1, by omega, by simp [h2]⟩
  · rintro h ⟨_, h2, _⟩
    omega

/-- C6 witness: a FINISHED contest with end time 0 and no saved changes
qualifies at time 3600 (one hour after its end) and does not qualify at
time 200000 (past the 36-hour window). -/
theorem C6_witness :
    RatingChangesCache.is_newly_finished_without_rating_changes (fun _ => false) 3600
      { id := 5, name := "F", phase := Phase.FINISHED,
        startTimeSeconds := -7200, durationSeconds := 7200 } ∧
    ¬ RatingChangesCache.is_newly_finished_without_rating_changes (fun _ => false) 200000
      { id := 5, name := "F", phase := Phase.FINISHED,
        startTimeSeconds := -7200, durationSeconds := 7200 } := by
  constructor
  · exact (C6_newly_finished_predicate (fun _ => false) 3600
      { id := 5, name := "F", phase := Phase.FINISHED,
        startTimeSeconds := -7200, durationSeconds := 7200 } []).2.2.1
      rfl rfl (by decide)
  · exact (C6_newly_finished_predicate (fun _ => false) 200000
      { id := 5, name := "F", phase := Phase.FINISHED,
        startTimeSeconds := -7200, durationSeconds := 7200 } []).2.2.2
      (by decide)

namespace ProblemsetCache

lemma selectContests_append (now : Int) (persisted : Nat → List Problem)
    (l1 l2 : List Contest) :
    selectContests now persisted (l1 ++ l2) =
      ((selectContests now persisted l1).1 ++ (selectContests now persisted l2).1,
       (selectContests now persisted l1).2 ++ (selectContests now persisted l2).2) := by
  induction l1 with
  | nil => simp [selectContests]
  | cons c t ih =>
    simp only [List.cons_append, selectContests]
    by_cases h1 : now > c.end_time + MONITOR_PERIOD_SINCE_CONTEST_END
    · simp [h1, ih]
    · by_cases h2 : persisted c.id = []
      · simp [h1, h2, ih]
      · by_cases h3 : (ratedProblemIdx (persisted c.id)).length < (persisted c.id).length
        · simp [h1, h2, h3, ih]
        · simp [h1, h2, h3, ih]

lemma ratedProblemIdx_length_lt (ps : List Problem) (q : Problem)
    (hq : q ∈ ps) (hqr : q.rating = none) :
    (ratedProblemIdx ps).length < ps.length := by
  have h1 : (ratedProblemIdx ps).length ≤
      (ps.filter (fun p => decide (p.rating ≠ none))).length := by
    calc (ratedProblemIdx ps).length
        ≤ ((ps.filter (fun p => decide (p.rating ≠ none))).map
            (fun p => p.index)).length := (List.dedup_sublist _).length_le
      _ = _ := List.length_map _ _
  have h2 : (ps.filter (fun p => decide (p.rating ≠ none))).length < ps.length :=
    List.length_filter_lt_length_iff_exists.mpr ⟨q, hq, by simp [hqr]⟩
  omega

lemma mem_ratedProblemIdx (ps : List Problem) (s : String) :
    s ∈ ratedProblemIdx ps ↔ ∃ q ∈ ps, q.rating ≠ none ∧ q.index = s := by
  simp only [ratedProblemIdx, List.mem_dedup, List.mem_map, List.mem_filter]
  constructor
  · rintro ⟨q, ⟨hq, hr⟩, hs⟩
    exact ⟨q, hq, by simpa using hr, hs⟩
  · rintro ⟨q, hq, hr, hs⟩
    exact ⟨q, ⟨hq, by simpa using hr⟩, hs⟩

lemma selectContests_pairs (now : Int) (persisted : Nat → List Problem) :
    ∀ (l : List Contest) (pr : Nat × List String),
      pr ∈ (selectContests now persisted l).2 →
        pr.2 = ratedProblemIdx (persisted pr.1) := by
  intro l
  induction l with
  | nil =>
    intro pr h
    simp [selectContests] at h
  | cons c t ih =>
    intro pr h
    simp only [selectContests] at h
    by_cases h1 : now > c.end_time + MONITOR_PERIOD_SINCE_CONTEST_END
    · rw [if_pos h1] at h
      exact ih pr h
    · rw [if_neg h1] at h
      by_cases h2 : persisted c.id = []
      · rw [if_pos h2] at h
        exact ih pr h
      · rw [if_neg h2] at h
        by_cases h3 : (ratedProblemIdx (persisted c.id)).length < (persisted c.id).length
        · rw [if_pos h3] at h
          replace h : pr ∈ (c.id, ratedProblemIdx (persisted c.id)) ::
            (selectContests now persisted t).2 := h
          rcases List.mem_cons.mp h with hc | hc
          · subst hc; rfl
          · exact ih pr hc
        · rw [if_neg h3] at h
          exact ih pr h

end ProblemsetCache

namespace ProblemsetCache

/-- C7: in a non-forced refresh cycle, a contest whose end time is more
than 14 days past contributes nothing (the outputs equal those of the
batch without it); a contest within the window with no persisted
problemset is scheduled as new, and the new problems are exactly the
fetched problems of the new contests; a contest within the window whose
persisted problemset has an unrated problem is scheduled for refetch
with its previously-rated index set; the updated problems are exactly
the re-fetched problems whose rating is now non-null and whose index was
not previously rated — so an already-rated problem (its index in the
remembered set) is never re-marked as updated, and no updated problem is
unrated. -/
theorem C7_problemset_refresh (now : Int) (contests : List Contest)
    (persisted : Nat → List Problem)
    (api : Nat → Except CodeforcesApiError (List Problem)) :
    (∀ (pre post : List Contest) (c : Contest),
      contests = pre ++ c :: post →
      now > c.end_time + MONITOR_PERIOD_SINCE_CONTEST_END →
      fetch_problemsets now contests persisted api false =
        fetch_problemsets now (pre ++ post) persisted api false) ∧
    (∀ c ∈ contests, ¬ now > c.end_time + MONITOR_PERIOD_SINCE_CONTEST_END →
      persisted c.id = [] → c.id ∈ (selectContests now persisted contests).1) ∧
    (∀ p : Problem, p ∈ (fetch_problemsets now contests persisted api false).1 ↔
      ∃ cid ∈ (selectContests now persisted contests).1, p ∈ fetch_for_contest api cid) ∧
    (∀ c ∈ contests, ¬ now > c.end_time + MONITOR_PERIOD_SINCE_CONTEST_END →
      persisted c.id ≠ [] → (∃ q ∈ persisted c.id, q.rating = none) →
      (c.id, ratedProblemIdx (persisted c.id)) ∈ (selectContests now persisted contests).2) ∧
    (∀ p : Problem, p ∈ (fetch_problemsets now contests persisted api false).2 ↔
      ∃ pr ∈ (selectContests now persisted contests).2,
        p ∈ fetch_for_contest api pr.1 ∧ p.rating ≠ none ∧ p.index ∉ pr.2) ∧
    (∀ pr ∈ (selectContests now persisted contests).2, ∀ s : String,
      s ∈ pr.2 ↔ ∃ q ∈ persisted pr.1, q.rating ≠ none ∧ q.index = s) ∧
    (∀ p ∈ (fetch_problemsets now contests persisted api false).2,
      p.rating ≠ none) := by
  have hupd : ∀ p : Problem, p ∈ (fetch_problemsets now contests persisted api false).2 ↔
      ∃ pr ∈ (selectContests now persisted contests).2,
        p ∈ fetch_for_contest api pr.1 ∧ p.rating ≠ none ∧ p.index ∉ pr.2 := by
    intro p
    simp only [fetch_problemsets, Bool.false_eq_true, if_neg, List.mem_flatten,
      List.mem_map, List.mem_filter]
    constructor
    · rintro ⟨l, ⟨pr, hpr, rfl⟩, hmem⟩
      rcases List.mem_filter.mp hmem with ⟨hin, hcond⟩
      simp only [Bool.and_eq_true, decide_eq_true_eq] at hcond
      exact ⟨pr, hpr, hin, hcond.1, hcond.2⟩
    · rintro ⟨pr, hpr, hin, hrat, hidx⟩
      refine ⟨_, ⟨pr, hpr, rfl⟩, ?_⟩
      exact List.mem_filter.mpr ⟨hin, by simp [hrat, hidx]⟩
  refine ⟨?_, ?_, ?_, ?_, hupd, ?_, ?_⟩
  · intro pre post c hceq hold
    subst hceq
    have hcp : selectContests now persisted (c :: post) =
        selectContests now persisted post := by
      simp only [selectContests]
      rw [if_pos hold]
    have hsel : selectContests now persisted (pre ++ c :: post) =
        selectContests now persisted (pre ++ post) := by
      rw [selectContests_append, selectContests_append, hcp]
    simp [fetch_problemsets, hsel]
  · intro c hc hold hp
    obtain ⟨pre, post, rfl⟩ := List.append_of_mem hc
    have hcp : (selectContests now persisted (c :: post)).1 =
        c.id :: (selectContests now persisted post).1 := by
      simp only [selectContests]
      rw [if_neg hold, if_pos hp]
    rw [selectContests_append now persisted pre (c :: post)]
    simp [hcp]
  · intro p
    simp only [fetch_problemsets, Bool.false_eq_true, if_neg, List.mem_flatten,
      List.mem_map]
    constructor
    · rintro ⟨l, ⟨cid, hcid, rfl⟩, hmem⟩
      exact ⟨cid, hcid, hmem⟩
    · rintro ⟨cid, hcid, hmem⟩
      exact ⟨_, ⟨cid, hcid, rfl⟩, hmem⟩
  · intro c hc hold hp hun
    obtain ⟨q, hq, hqr⟩ := hun
    obtain ⟨pre, post, rfl⟩ := List.append_of_mem hc
    have h3 := ratedProblemIdx_length_lt (persisted c.id) q hq hqr
    have hcp : (selectContests now persisted (c :: post)).2 =
        (c.id, ratedProblemIdx (persisted c.id)) ::
          (selectContests now persisted post).2 := by
      simp only [selectContests]
      rw [if_neg hold, if_neg hp, if_pos h3]
    rw [selectContests_append now persisted pre (c :: post)]
    simp [hcp]
  · intro pr hpr s
    rw [selectContests_pairs now persisted contests pr hpr, mem_ratedProblemIdx]
  · intro p hp
    obtain ⟨pr, hpr, hmem, hrat, hidx⟩ := (hupd p).mp hp
    exact hrat

end ProblemsetCache

namespace ProblemsetCache

/-- C7 witness: at time 1000, contest 1 (no persisted problemset) is
scheduled as new and contest 2 (persisted set with index B unrated) is
scheduled for refetch remembering rated index A; the updated problems of
the cycle are exactly the re-fetched problem B, now rated; and a contest
that ended more than 14 days ago is skipped entirely. -/
theorem C7_witness :
    1 ∈ (selectContests 1000
      (fun i => if i = 2 then
        [{ contestId := 2, index := "A", name := "PA", rating := some 800 },
         { contestId := 2, index := "B", name := "PB", rating := none }] else [])
      [{ id := 1, name := "N", phase := Phase.FINISHED,
         startTimeSeconds := 0, durationSeconds := 100 },
       { id := 2, name := "R", phase := Phase.FINISHED,
         startTimeSeconds := 0, durationSeconds := 100 }]).1 ∧
    (2, ["A"]) ∈ (selectContests 1000
      (fun i => if i = 2 then
        [{ contestId := 2, index := "A", name := "PA", rating := some 800 },
         { contestId := 2, index := "B", name := "PB", rating := none }] else [])
      [{ id := 1, name := "N", phase := Phase.FINISHED,
         startTimeSeconds := 0, durationSeconds := 100 },
       { id := 2, name := "R", phase := Phase.FINISHED,
         startTimeSeconds := 0, durationSeconds := 100 }]).2 ∧
    (fetch_problemsets 1000
      [{ id := 1, name := "N", phase := Phase.FINISHED,
         startTimeSeconds := 0, durationSeconds := 100 },
       { id := 2, name := "R", phase := Phase.FINISHED,
         startTimeSeconds := 0, durationSeconds := 100 }]
      (fun i => if i = 2 then
        [{ contestId := 2, index := "A", name := "PA", rating := some 800 },
         { contestId := 2, index := "B", name := "PB", rating := none }] else [])
      (fun i => if i = 2 then
        Except.ok [{ contestId := 2, index := "A", name := "PA", rating := some 800 },
                   { contestId := 2, index := "B", name := "PB", rating := some 900 }]
       else Except.ok [])
      false).2 =
      [{ contestId := 2, index := "B", name := "PB", rating := some 900 }] ∧
    fetch_problemsets 2000000
      [{ id := 3, name := "O", phase := Phase.FINISHED,
         startTimeSeconds := 0, durationSeconds := 0 }]
      (fun _ => []) (fun _ => Except.ok []) false =
      fetch_problemsets 2000000 [] (fun _ => []) (fun _ => Except.ok []) false := by
  refine ⟨?_, ?_, by decide, ?_⟩
  · have h := (C7_problemset_refresh 1000
      [{ id := 1, name := "N", phase := Phase.FINISHED,
         startTimeSeconds := 0, durationSeconds := 100 },
       { id := 2, name := "R", phase := Phase.FINISHED,
         startTimeSeconds := 0, durationSeconds := 100 }]
      (fun i => if i = 2 then
        [{ contestId := 2, index := "A", name := "PA", rating := some 800 },
         { contestId := 2, index := "B", name := "PB", rating := none }] else [])
      (fun i => if i = 2 then
        Except.ok [{ contestId := 2, index := "A", name := "PA", rating := some 800 },
                   { contestId := 2, index := "B", name := "PB", rating := some 900 }]
       else Except.ok [])).2.1
      { id := 1, name := "N", phase := Phase.FINISHED,
        startTimeSeconds := 0, durationSeconds := 100 }
      (by decide) (by decide) (by decide)
    exact h
  · have h := (C7_problemset_refresh 1000
      [{ id := 1, name := "N", phase := Phase.FINISHED,
         startTimeSeconds := 0, durationSeconds := 100 },
       { id := 2, name := "R", phase := Phase.FINISHED,
         startTimeSeconds := 0, durationSeconds := 100 }]
      (fun i => if i = 2 then
        [{ contestId := 2, index := "A", name := "PA", rating := some 800 },
         { contestId := 2, index := "B", name := "PB", rating := none }] else [])
      (fun i => if i = 2 then
        Except.ok [{ contestId := 2, index := "A", name := "PA", rating := some 800 },
                   { contestId := 2, index := "B", name := "PB", rating := some 900 }]
       else Except.ok [])).2.2.2.1
      { id := 2, name := "R", phase := Phase.FINISHED,
        startTimeSeconds := 0, durationSeconds := 100 }
      (by decide) (by decide) (by decide)
      ⟨{ contestId := 2, index := "B", name := "PB", rating := none }, by decide, rfl⟩
    simpa using h
  · have h := (C7_problemset_refresh 2000000
      [{ id := 3, name := "O", phase := Phase.FINISHED,
         startTimeSeconds := 0, durationSeconds := 0 }]
      (fun _ => []) (fun _ => Except.ok [])).1
      [] []
      { id := 3, name := "O", phase := Phase.FINISHED,
        startTimeSeconds := 0, durationSeconds := 0 }
      rfl (by decide)
    simpa using h

end ProblemsetCache

namespace RanklistCache

lemma foldl_fetchStep_error (gen : Nat → Except CodeforcesApiError Ranklist)
    (cid : Nat) (e : CodeforcesApiError) (hg : gen cid = .error e) :
    ∀ (l : List Contest) (m : Nat → Option Ranklist),
      (l.foldl (fetchStep gen) m) cid = m cid := by
  intro l
  induction l with
  | nil => intro m; rfl
  | cons c t ih =>
    intro m
    rw [List.foldl_cons, ih]
    unfold fetchStep
    cases hgc : gen c.id with
    | error e2 => rfl
    | ok r =>
      by_cases hid : cid = c.id
      · rw [hid] at hg
        rw [hg] at hgc
        cases hgc
      · simp [hid]

lemma foldl_fetchStep_ok_preserve (gen : Nat → Except CodeforcesApiError Ranklist)
    (cid : Nat) (r : Ranklist) (hg : gen cid = .ok r) :
    ∀ (l : List Contest) (m : Nat → Option Ranklist), m cid = some r →
      (l.foldl (fetchStep gen) m) cid = some r := by
  intro l
  induction l with
  | nil => intro m hm; exact hm
  | cons c t ih =>
    intro m hm
    rw [List.foldl_cons]
    refine ih _ ?_
    unfold fetchStep
    cases hgc : gen c.id with
    | error e2 => exact hm
    | ok r2 =>
      by_cases hid : cid = c.id
      · rw [hid] at hg
        rw [hg] at hgc
        cases hgc
        simp [hid]
      · simp [hid, hm]

lemma foldl_fetchStep_ok_mem (gen : Nat → Except CodeforcesApiError Ranklist)
    (cid : Nat) (r : Ranklist) (hg : gen cid = .ok r) :
    ∀ (l : List Contest) (m : Nat → Option Ranklist),
      (∃ c ∈ l, c.id = cid) → (l.foldl (fetchStep gen) m) cid = some r := by
  intro l
  induction l with
  | nil =>
    rintro m ⟨c, hc, _⟩
    simp at hc
  | cons d t ih =>
    rintro m ⟨c, hc, hcid⟩
    rw [List.foldl_cons]
    by_cases hd : d.id = cid
    · refine foldl_fetchStep_ok_preserve gen cid r hg t _ ?_
      unfold fetchStep
      rw [hd, hg]
      simp
    · rcases List.mem_cons.mp hc with rfl | hct
      · exact absurd hcid hd
      · exact ih _ ⟨c, hct, hcid⟩

lemma fetch_error (gen : Nat → Except CodeforcesApiError Ranklist) (cid : Nat)
    (e : CodeforcesApiError) (hg : gen cid = .error e) (l : List Contest) :
    fetch l gen cid = none :=
  foldl_fetchStep_error gen cid e hg l (fun _ => none)

lemma fetch_ok (gen : Nat → Except CodeforcesApiError Ranklist) (cid : Nat)
    (r : Ranklist) (hg : gen cid = .ok r) (l : List Contest)
    (hmem : ∃ c ∈ l, c.id = cid) :
    fetch l gen cid = some r :=
  foldl_fetchStep_ok_mem gen cid r hg l (fun _ => none) hmem

/-- C8: during a monitor cycle in which the post-filter monitored list is
non-empty, a monitored contest whose ranklist generation fails keeps its
previously cached entry unchanged (neither replaced nor evicted), while a
monitored contest whose generation succeeds has its entry replaced by the
newly generated ranklist. -/
theorem C8_fetch_failure_keeps_entry (check : Contest → Bool) (s : RLState)
    (gen : Nat → Except CodeforcesApiError Ranklist) (c : Contest)
    (hc : c ∈ s.monitored_contests.filter
      (fun c => decide (c.phase ≠ Phase.FINISHED) || check c))
    (hne : s.monitored_contests.filter
      (fun c => decide (c.phase ≠ Phase.FINISHED) || check c) ≠ []) :
    (∀ e, gen c.id = .error e →
      (monitor_task check s gen).ranklist_by_contest c.id =
        s.ranklist_by_contest c.id) ∧
    (∀ r, gen c.id = .ok r →
      (monitor_task check s gen).ranklist_by_contest c.id = some r) := by
  constructor
  · intro e hg
    have hf := fetch_error gen c.id e hg
      (s.monitored_contests.filter (fun c => decide (c.phase ≠ Phase.FINISHED) || check c))
    simp only [ne_eq, decide_not] at hf hne
    simp only [monitor_task, ne_eq, decide_not]
    rw [if_neg hne]
    simp [hf]
  · intro r hg
    have hf := fetch_ok gen c.id r hg
      (s.monitored_contests.filter (fun c => decide (c.phase ≠ Phase.FINISHED) || check c))
      ⟨c, hc, rfl⟩
    simp only [ne_eq, decide_not] at hf hne
    simp only [monitor_task, ne_eq, decide_not]
    rw [if_neg hne]
    simp [hf]

/-- C8 witness: two monitored CODING contests; generation fails for
contest 1 and succeeds for contest 2, so contest 1 keeps its old cached
ranklist and contest 2's entry is replaced. -/
theorem C8_witness :
    (monitor_task (fun _ => false)
      { monitored_contests :=
          [{ id := 1, name := "X", phase := Phase.CODING,
             startTimeSeconds := 0, durationSeconds := 100 },
           { id := 2, name := "Y", phase := Phase.CODING,
             startTimeSeconds := 0, durationSeconds := 100 }],
        ranklist_by_contest := fun i => if i = 1 then some { payload := 10 } else none,
        monitorRunning := true }
      (fun i => if i = 2 then .ok { payload := 20 } else .error { msg := "down" })
      |>.ranklist_by_contest) 1 = some { payload := 10 } ∧
    (monitor_task (fun _ => false)
      { monitored_contests :=
          [{ id := 1, name := "X", phase := Phase.CODING,
             startTimeSeconds := 0, durationSeconds := 100 },
           { id := 2, name := "Y", phase := Phase.CODING,
             startTimeSeconds := 0, durationSeconds := 100 }],
        ranklist_by_contest := fun i => if i = 1 then some { payload := 10 } else none,
        monitorRunning := true }
      (fun i => if i = 2 then .ok { payload := 20 } else .error { msg := "down" })
      |>.ranklist_by_contest) 2 = some { payload := 20 } := by
  constructor
  · have h := (C8_fetch_failure_keeps_entry (fun _ => false)
      { monitored_contests :=
          [{ id := 1, name := "X", phase := Phase.CODING,
             startTimeSeconds := 0, durationSeconds := 100 },
           { id := 2, name := "Y", phase := Phase.CODING,
             startTimeSeconds := 0, durationSeconds := 100 }],
        ranklist_by_contest := fun i => if i = 1 then some { payload := 10 } else none,
        monitorRunning := true }
      (fun i => if i = 2 then .ok { payload := 20 } else .error { msg := "down" })
      { id := 1, name := "X", phase := Phase.CODING,
        startTimeSeconds := 0, durationSeconds := 100 }
      (by decide) (by decide)).1 { msg := "down" } rfl
    simpa using h
  · have h := (C8_fetch_failure_keeps_entry (fun _ => false)
      { monitored_contests :=
          [{ id := 1, name := "X", phase := Phase.CODING,
             startTimeSeconds := 0, durationSeconds := 100 },
           { id := 2, name := "Y", phase := Phase.CODING,
             startTimeSeconds := 0, durationSeconds := 100 }],
        ranklist_by_contest := fun i => if i = 1 then some { payload := 10 } else none,
        monitorRunning := true }
      (fun i => if i = 2 then .ok { payload := 20 } else .error { msg := "down" })
      { id := 2, name := "Y", phase := Phase.CODING,
        startTimeSeconds := 0, durationSeconds := 100 }
      (by decide) (by decide)).2 { payload := 20 } rfl
    exact h

end RanklistCache

namespace RatingChangesCache

lemma foldl_fetchStep_acc (api : Nat → Except CodeforcesApiError (List RatingChange)) :
    ∀ (l : List Contest) (acc : List RatingChange),
      l.foldl (fetchStep api) acc = acc ++ l.foldl (fetchStep api) [] := by
  intro l
  induction l with
  | nil => intro acc; simp
  | cons c t ih =>
    intro acc
    rw [List.foldl_cons, List.foldl_cons, ih, ih (fetchStep api [] c)]
    unfold fetchStep
    cases api c.id <;> simp

lemma fetch_append (api : Nat → Except CodeforcesApiError (List RatingChange))
    (l1 l2 : List Contest) :
    fetch (l1 ++ l2) api = fetch l1 api ++ fetch l2 api := by
  unfold fetch
  rw [List.foldl_append, foldl_fetchStep_acc]

lemma fetch_cons (api : Nat → Except CodeforcesApiError (List RatingChange))
    (c : Contest) (l : List Contest) :
    fetch (c :: l) api = fetchStep api [] c ++ fetch l api := by
  unfold fetch
  rw [List.foldl_cons, foldl_fetchStep_acc]

end RatingChangesCache

/-- C9: in every per-contest batch fetch, a `CodeforcesApiError` for one
contest is caught at that contest's scope and treated as an empty result
for that contest only: the batch results of a RatingChangesCache fetch
are the results of the surrounding contests unchanged, and an errored
ProblemsetCache per-contest fetch yields the empty problemset while the
rest of a flattened batch over contest ids is unaffected. -/
theorem C9_per_contest_error_isolation (pre post : List Contest) (c : Contest)
    (api : Nat → Except CodeforcesApiError (List RatingChange))
    (apiP : Nat → Except CodeforcesApiError (List Problem)) (cid : Nat) :
    (∀ e, api c.id = .error e →
      RatingChangesCache.fetch (pre ++ c :: post) api =
        RatingChangesCache.fetch pre api ++ RatingChangesCache.fetch post api) ∧
    (∀ cs, api c.id = .ok cs →
      RatingChangesCache.fetch (pre ++ c :: post) api =
        RatingChangesCache.fetch pre api ++ cs ++ RatingChangesCache.fetch post api) ∧
    (∀ e, apiP cid = .error e → ProblemsetCache.fetch_for_contest apiP cid = []) ∧
    (∀ ps, apiP cid = .ok ps → ProblemsetCache.fetch_for_contest apiP cid = ps) ∧
    (∀ e (ids1 ids2 : List Nat), apiP cid = .error e →
      ((ids1 ++ cid :: ids2).map (ProblemsetCache.fetch_for_contest apiP)).flatten =
        ((ids1 ++ ids2).map (ProblemsetCache.fetch_for_contest apiP)).flatten) := by
  refine ⟨?_, ?_, ?_, ?_, ?_⟩
  · intro e hg
    rw [RatingChangesCache.fetch_append, RatingChangesCache.fetch_cons]
    unfold RatingChangesCache.fetchStep
    rw [hg]
    simp
  · intro cs hg
    rw [RatingChangesCache.fetch_append, RatingChangesCache.fetch_cons]
    unfold RatingChangesCache.fetchStep
    rw [hg]
    simp
  · intro e hg
    unfold ProblemsetCache.fetch_for_contest
    rw [hg]
  · intro ps hg
    unfold ProblemsetCache.fetch_for_contest
    rw [hg]
  · intro e ids1 ids2 hg
    have hempty : ProblemsetCache.fetch_for_contest apiP cid = [] := by
      unfold ProblemsetCache.fetch_for_contest
      rw [hg]
    simp [List.map_append, List.flatten_append, hempty]

/-- C9 witness: contest 1 errors while contests 2 and 3 succeed; the
batch result is exactly the changes of contests 2 and 3, and the errored
problemset fetch is empty without disturbing its batch. -/
theorem C9_witness :
    RatingChangesCache.fetch
      [{ id := 2, name := "B", phase := Phase.FINISHED,
         startTimeSeconds := 0, durationSeconds := 1 },
       { id := 1, name := "A", phase := Phase.FINISHED,
         startTimeSeconds := 0, durationSeconds := 1 },
       { id := 3, name := "D", phase := Phase.FINISHED,
         startTimeSeconds := 0, durationSeconds := 1 }]
      (fun i => if i = 1 then .error { msg := "down" }
        else .ok [{ contestId := i, handle := "h", oldRating := 1500, newRating := 1500 + i }]) =
      [{ contestId := 2, handle := "h", oldRating := 1500, newRating := 1502 },
       { contestId := 3, handle := "h", oldRating := 1500, newRating := 1503 }] ∧
    ProblemsetCache.fetch_for_contest
      (fun _ => .error { msg := "down" }) 9 = [] := by
  constructor
  · have h := (C9_per_contest_error_isolation
      [{ id := 2, name := "B", phase := Phase.FINISHED,
         startTimeSeconds := 0, durationSeconds := 1 }]
      [{ id := 3, name := "D", phase := Phase.FINISHED,
         startTimeSeconds := 0, durationSeconds := 1 }]
      { id := 1, name := "A", phase := Phase.FINISHED,
        startTimeSeconds := 0, durationSeconds := 1 }
      (fun i => if i = 1 then .error { msg := "down" }
        else .ok [{ contestId := i, handle := "h", oldRating := 1500, newRating := 1500 + i }])
      (fun _ => .error { msg := "down" }) 9).1 { msg := "down" } rfl
    simp only [List.singleton_append] at h
    rw [h]
    decide
  · exact (C9_per_contest_error_isolation [] []
      { id := 1, name := "A", phase := Phase.FINISHED,
        startTimeSeconds := 0, durationSeconds := 1 }
      (fun _ => .ok [])
      (fun _ => .error { msg := "down" }) 9).2.2.1 { msg := "down" } rfl

namespace RatingChangesCache

/-- C10: `fetch_contest` always clears the contest's persisted rating
changes, even when the fetch yielded zero changes (in particular when the
per-contest API call failed and was swallowed as an empty list); since
`_save_changes` returns early on an empty list without recomputing the
handle rating map, such a call leaves the persisted log without the
contest's rows while the in-memory handle rating map is exactly the
pre-call one. -/
theorem C10_fetch_contest_stale_cache (s : RCState) (contest : Contest)
    (api : Nat → Except CodeforcesApiError (List RatingChange)) :
    (∀ e, api contest.id = .error e → fetch [contest] api = []) ∧
    (fetch [contest] api = [] →
      ((fetch_contest s contest api).1.db = clear_rating_changes s.db contest.id ∧
       (fetch_contest s contest api).1.db.filter
         (fun ch => ch.contestId == contest.id) = [] ∧
       (fetch_contest s contest api).1.handle_rating_cache =
         s.handle_rating_cache)) ∧
    (save_changes s [] = s) := by
  refine ⟨?_, ?_, ?_⟩
  · intro e hg
    rw [fetch_cons]
    unfold fetchStep
    rw [hg]
    rfl
  · intro hemp
    have hfc : (fetch_contest s contest api).1 =
        { s with db := clear_rating_changes s.db contest.id } := by
      simp [fetch_contest, hemp, save_changes]
    refine ⟨by rw [hfc], ?_, by rw [hfc]⟩
    rw [hfc]
    apply List.filter_eq_nil_iff.mpr
    intro ch hch
    have hne := (List.mem_filter.mp hch).2
    simp only [decide_eq_true_eq] at hne
    simpa using hne
  · simp [save_changes]

/-- C10 witness: with persisted rows for contests 1 and 2 and a cached
rating for handle h, a failed fetch for contest 1 deletes contest 1's
rows (leaving only contest 2's) while the handle rating map still
returns the pre-call value. -/
theorem C10_witness :
    ((fetch_contest
        { db := [{ contestId := 1, handle := "h", oldRating := 1500, newRating := 1600 },
                 { contestId := 2, handle := "h", oldRating := 1600, newRating := 1650 }],
          handle_rating_cache := fun h => if h = "h" then some 1650 else none }
        { id := 1, name := "A", phase := Phase.FINISHED,
          startTimeSeconds := 0, durationSeconds := 1 }
        (fun _ => .error { msg := "down" })).1.db =
      [{ contestId := 2, handle := "h", oldRating := 1600, newRating := 1650 }]) ∧
    ((fetch_contest
        { db := [{ contestId := 1, handle := "h", oldRating := 1500, newRating := 1600 },
                 { contestId := 2, handle := "h", oldRating := 1600, newRating := 1650 }],
          handle_rating_cache := fun h => if h = "h" then some 1650 else none }
        { id := 1, name := "A", phase := Phase.FINISHED,
          startTimeSeconds := 0, durationSeconds := 1 }
        (fun _ => .error { msg := "down" })).1.handle_rating_cache "h" = some 1650) := by
  have hth := C10_fetch_contest_stale_cache
    { db := [{ contestId := 1, handle := "h", oldRating := 1500, newRating := 1600 },
             { contestId := 2, handle := "h", oldRating := 1600, newRating := 1650 }],
      handle_rating_cache := fun h => if h = "h" then some 1650 else none }
    { id := 1, name := "A", phase := Phase.FINISHED,
      startTimeSeconds := 0, durationSeconds := 1 }
    (fun _ => .error { msg := "down" })
  have hemp := hth.1 { msg := "down" } rfl
  have h2 := hth.2.1 hemp
  constructor
  · rw [h2.1]
    decide
  · rw [congrFun h2.2.2 "h"]
    rfl

end RatingChangesCache
